import Mathlib

/-!
Verification of the sandpack-bundler compilation engine.

Each definition below is a shallow embedding of a function of the
repository, translated statement by statement from the TypeScript
source; the source file and line ranges are cited on every definition.
Host primitives (network fetch, `JSON.parse`, the JS engine executing
compiled code) are abstracted as explicit parameters or outcome values,
never as stubs of the repository's own logic.
-/

set_option maxRecDepth 4000

/-! ## Node built-in tables

`NODE_BUILTIN_MODULES` as declared both in
`src/bundler/module/Module.ts` lines 7-14 and
`src/bundler/module/Evaluation.ts` lines 7-14 (the two lists are
identical). -/

def nodeBuiltinModules : List String :=
  [ "assert", "buffer", "child_process", "cluster", "console", "constants",
    "crypto", "dgram", "dns", "domain", "events", "fs", "http", "https",
    "module", "net", "os", "path", "punycode", "querystring", "readline",
    "repl", "stream", "string_decoder", "sys", "timers", "tls", "tty",
    "url", "util", "vm", "zlib", "process", "_stream_duplex", "_stream_passthrough",
    "_stream_readable", "_stream_transform", "_stream_writable" ]

/-- `getBuiltinShimPath` from `src/bundler/module/Evaluation.ts` lines 16-26
(the copy in `Module.ts` lines 16-31 is the same function): strip a
`node:` prefix (`startsWith` / `slice(5)`), take the base name before
the first `/` (`split('/')[0]`), and map recognized built-ins to
`/node_modules/<base>/index.js`. The two string operations are
expressed character-wise (`take 5 = "node:"` for the prefix test,
`takeWhile` up to the first `/` for the split head), which coincides
with the JS semantics on every input. -/
def getBuiltinShimPath (specifier : String) : Option String :=
  let cs := specifier.toList
  let moduleName := if cs.take 5 = ['n', 'o', 'd', 'e', ':'] then cs.drop 5 else cs
  let baseName := String.mk (moduleName.takeWhile (fun c => c != '/'))
  if nodeBuiltinModules.contains baseName then
    some ("/node_modules/" ++ baseName ++ "/index.js")
  else
    none

/-- The keys of the `nodeBuiltins` record in
`Bundler.writeNodeBuiltinShims`, `src/bundler/bundler.ts` lines 236-348,
in object-literal order. Each of these names gets an `index.js` shim and
a `package.json` written into the memory FS layer. -/
def defaultShimNames : List String :=
  [ "stream", "events", "util", "process", "buffer", "assert",
    "fs", "path", "os", "crypto", "http", "https", "net", "tls",
    "dns", "dgram", "child_process", "cluster", "readline", "repl",
    "tty", "vm", "zlib", "constants", "module", "domain", "punycode",
    "querystring", "string_decoder", "url", "timers" ]

/-- The set of paths present in the memory FS layer right after `Bundler`
construction: `//empty.js` (written in the constructor,
`src/bundler/bundler.ts` line 60) plus, for each shim name, its
`index.js` and `package.json` (`writeNodeBuiltinShims`, lines 350-357).
The shim file contents are large JS strings that none of the verified
claims inspect, so only path existence is modelled. -/
def defaultMemoryFiles : List String :=
  "//empty.js" ::
    defaultShimNames.flatMap (fun n =>
      [ "/node_modules/" ++ n ++ "/index.js",
        "/node_modules/" ++ n ++ "/package.json" ])

/-! ## Preset registry (C10)

`src/bundler/presets/registry.ts`. -/

/-- The three preset classes instantiated by the registry
(`ReactPreset`, `SolidPreset`, `VanillaPreset`). -/
inductive PresetKind where
  | react
  | solid
  | vanilla
deriving DecidableEq, Repr

/-- `PRESET_MAP` from `src/bundler/presets/registry.ts` lines 7-13. -/
def presetMap : List (String × PresetKind) :=
  [ ("react", PresetKind.react),
    ("solid", PresetKind.solid),
    ("vanilla", PresetKind.vanilla),
    ("static", PresetKind.vanilla),
    ("html", PresetKind.vanilla) ]

/-- `getPreset` from `src/bundler/presets/registry.ts` lines 15-22: map
lookup, and on a miss log a warning and fall back to a fresh
`ReactPreset`. -/
def getPreset (presetName : String) : PresetKind :=
  match presetMap.lookup presetName with
  | some found => found
  | none => PresetKind.react

/-! ## package.json processing (C9)

`Bundler.processPackageJSON`, `src/bundler/bundler.ts` lines 406-416. -/

/-- The parsed `/package.json` value. Only its identity matters to the
claims, so it is carried as the underlying parsed payload. -/
structure IPackageJSON where
  raw : String
deriving DecidableEq, Repr

inductive PkgJSONError where
  /-- `fs.readFileAsync` rejected: `/package.json` does not exist. -/
  | fileNotFound
  /-- `JSON.parse` threw and no package.json had ever been parsed. -/
  | parseErrorProp
deriving DecidableEq, Repr

/-- `Bundler.processPackageJSON` (`src/bundler/bundler.ts` lines 406-416).
`fsContent` is the result of `fs.readFileAsync` (`none` = the read
rejected) and `parse` abstracts the host primitive `JSON.parse`
(`none` = it threw). The field `parsedPackageJSON` is passed in as
`prev` and the updated field is returned on the `ok` path:

  - on a successful parse the field is replaced;
  - on a parse failure the error is rethrown only when the field was
    still `null`, otherwise the method returns normally with the field
    untouched. -/
def processPackageJSON (prev : Option IPackageJSON) (fsContent : Option String)
    (parse : String → Option IPackageJSON) : Except PkgJSONError (Option IPackageJSON) :=
  match fsContent with
  | none => Except.error PkgJSONError.fileNotFound
  | some content =>
    match parse content with
    | some pkg => Except.ok (some pkg)
    | none =>
      match prev with
      | none => Except.error PkgJSONError.parseErrorProp
      | some p => Except.ok (some p)

/-! ## CDN manifest fallback (C7)

`fetchManifest` in the module-registry fetcher (`src/unnamed/part_001`
lines 141-165; the esm-first variant at lines 308-332 has the identical
fallback branch). -/

/-- The character class of the regex `/[\^~>=<]/g` used on the version
range in the fallback branch. -/
def rangeOpChars : List Char := ['^', '~', '>', '=', '<']

/-- `version.replace(/[\^~>=<]/g, '')`: delete every occurrence of a
range-operator character, anywhere in the string. -/
def stripRangeOps (version : String) : String :=
  String.mk (version.toList.filter (fun c => !(rangeOpChars.contains c)))

/-- What the claim's wording prescribes instead: the version range
"stripped of leading range operators" only. -/
def stripLeadingRangeOps (version : String) : String :=
  String.mk (version.toList.dropWhile (fun c => rangeOpChars.contains c))

/-- `IResolvedDependency` (`src/unnamed/part_001` lines 126-133):
name `n`, version `v`, depth `d`. -/
structure IResolvedDependency where
  n : String
  v : String
  d : Nat
deriving DecidableEq, Repr

/-- The body of `entries.map(([name, version], index) => ...)` in the
fallback branch of `fetchManifest` (`src/unnamed/part_001` lines
159-163), with the running index made explicit:
`v` is the stripped version or `'latest'` when the strip left nothing
(`|| 'latest'`), and `d` is the entry's index. -/
def fallbackManifestFrom : Nat → List (String × String) → List IResolvedDependency
  | _, [] => []
  | index, (name, version) :: rest =>
    { n := name,
      v := (let s := stripRangeOps version; if s = "" then "latest" else s),
      d := index } :: fallbackManifestFrom (index + 1) rest

/-- The manifest synthesized by the `catch` branch of `fetchManifest`
when the primary CDN fetch fails: the object's own entries, in
enumeration order, mapped with their index. -/
def fallbackManifest (deps : List (String × String)) : List IResolvedDependency :=
  fallbackManifestFrom 0 deps

/-! ## Module.compile (C3)

`Module.compile`, `src/bundler/module/Module.ts` (src/unnamed/part_000)
lines 89-130. -/

/-- The outcome of one transformer step of the chain, as observed by the
`for` loop in `Module.compile`. A transformer either returns an
`ITranspilationResult` (`res`), returns a `BundlerError` value (`err`,
the `instanceof BundlerError` branch), or throws -- `thrown` also covers
a rejection coming from the `addDependency` calls awaited inside the
loop, since both land in the surrounding `catch`. -/
inductive TransformOutcome where
  | res (code : String) (dependencies : List String)
  | err (e : String)
  | thrown (e : String)
deriving DecidableEq, Repr

/-- The fields of `Module` that `compile` reads and writes
(`src/unnamed/part_000` lines 37-62). Dependency resolution is not
modelled here (see `requireRt` and the graph models below); `compile`
only accumulates the discovered specifiers. -/
structure CompModule where
  source : String
  compiled : Option String
  compilationError : Option String
  dependencies : List String
deriving DecidableEq, Repr

/-- A freshly constructed user module (constructor at
`src/unnamed/part_000` lines 53-62 with `isCompiled = false`). -/
def freshModule (source : String) : CompModule :=
  { source := source, compiled := none, compilationError := none, dependencies := [] }

/-- The transformer loop of `Module.compile` (lines 104-126): `code`
starts at `this.source`; a returned `BundlerError` sets
`compilationError` and the loop continues with `code` unchanged; a
successful result replaces `code` and registers the discovered
dependencies; a throw aborts into the `catch`, which sets
`compilationError` and leaves `compiled` untouched. After the loop,
line 126 assigns `this.compiled = code` unconditionally. -/
def compileLoop (m : CompModule) (code : String) : List TransformOutcome → CompModule
  | [] => { m with compiled := some code }
  | TransformOutcome.thrown e :: _ => { m with compilationError := some e }
  | TransformOutcome.err e :: rest =>
    compileLoop { m with compilationError := some e } code rest
  | TransformOutcome.res c deps :: rest =>
    compileLoop { m with dependencies := m.dependencies ++ deps } c rest

/-- `Module.compile` (`src/unnamed/part_000` lines 89-130). `outcomes`
lists what each transformer of the chain supplied by the preset does;
`none` stands for a missing preset and `some []` for an empty chain,
both of which throw before the loop and are caught at line 127. -/
def compileModule (m : CompModule) (outcomes : Option (List TransformOutcome)) : CompModule :=
  if m.compiled ≠ none ∨ m.compilationError ≠ none then m
  else
    match outcomes with
    | none => { m with compilationError := some "Preset has not been initialized" }
    | some [] => { m with compilationError := some "No transformers found" }
    | some (o :: rest) => compileLoop m m.source (o :: rest)

/-! ## Module.resetCompilation (C8)

`Module.resetCompilation`, `src/unnamed/part_000` lines 132-163. -/

/-- The module fields read and written by `resetCompilation`.
`evaluation` is the cached `Evaluation` instance (identified by a
number, see the runtime model below); `isHot` is
`hot.hmrConfig && hot.hmrConfig.isHot()`; `isDirty` is the HMR dirty
flag written through `hmrConfig.setDirty`. -/
structure ResetModuleState where
  compiled : Option String
  evaluation : Option Nat
  compilationError : Option String
  isHot : Bool
  isDirty : Bool
deriving DecidableEq, Repr

/-- What a `resetCompilation` call did: the resulting module state,
whether `location.reload()` was called, and whether
`bundler.transformModule(this.filepath)` was re-scheduled. -/
structure ResetEffects where
  state : ResetModuleState
  reloaded : Bool
  rescheduled : Bool
deriving DecidableEq, Repr

/-- `Module.resetCompilation` (`src/unnamed/part_000` lines 132-163):
always clear `compilationError` (line 134); return early when
`compiled` is already `null` (line 137); otherwise clear `compiled` and
`evaluation`, then either mark the module dirty (hot case) or call
`location.reload()`, and finally re-schedule the module's
transformation. -/
def resetCompilation (m : ResetModuleState) : ResetEffects :=
  let m1 := { m with compilationError := none }
  if m1.compiled = none then
    { state := m1, reloaded := false, rescheduled := false }
  else
    let m2 := { m1 with compiled := none, evaluation := none }
    if m2.isHot then
      { state := { m2 with isDirty := true }, reloaded := false, rescheduled := true }
    else
      { state := m2, reloaded := true, rescheduled := true }

/-! ## Runtime require (C4, C6)

`Evaluation.require`, `src/bundler/module/Evaluation.ts` lines 55-91,
together with `Module.evaluate`'s caching of the `Evaluation` instance
(`src/unnamed/part_000` lines 165-190). -/

/-- The per-module runtime data consulted by `require`: the module's
path, its source and compiled text, the cached `Evaluation` instance
(identified by a creation counter; its `context.exports` object is in
one-to-one correspondence with it), and `dependencyMap`. -/
structure RtModule where
  filepath : String
  source : String
  compiled : Option String
  evalId : Option Nat
  dependencyMap : List (String × String)
deriving DecidableEq, Repr

/-- The bundler state touched by `require`: `bundler.modules`, the
paths readable through `fs.readFileSync` (for shim materialization --
contents are elided, see `defaultMemoryFiles`), and the counter
producing fresh `Evaluation` identities. -/
structure RtState where
  modules : List (String × RtModule)
  fsFiles : List String
  nextEval : Nat
deriving DecidableEq, Repr

/-- The bundler state right after construction: no modules yet, the
memory FS seeded with `//empty.js` and the built-in shims. -/
def defaultRtState : RtState :=
  { modules := [], fsFiles := defaultMemoryFiles, nextEval := 0 }

/-- `bundler.modules.set(path, m)`: replace-or-insert keyed by path. -/
def setModule (st : RtState) (path : String) (m : RtModule) : RtState :=
  { st with modules := (path, m) :: st.modules.filter (fun kv => kv.1 ≠ path) }

/-- What a `require` call returns. `exports e` is
`module.evaluate().context.exports` where `e` identifies the
`Evaluation` instance; `emptyObject` is the literal empty object
returned when a shim file is absent; the two error constructors carry
exactly the data interpolated into the thrown messages. -/
inductive RequireResult where
  /-- exports of the Evaluation instance numbered `e` -/
  | exports (e : Nat)
  /-- the `return {}` of the missing-shim catch -/
  | emptyObject
  /-- `Dependency "<specifier>" not collected from "<filepath>"` -/
  | errNotCollected (specifier : String) (fromPath : String)
  /-- `Module "<path>" has not been transpiled` -/
  | errNotTranspiled (path : String)
deriving DecidableEq, Repr

/-- `Module.evaluate` (`src/unnamed/part_000` lines 165-190) as observed
through `require`: return the cached `Evaluation` if present, otherwise
construct a fresh one and cache it on the module. The execution of the
module's compiled code inside the `Evaluation` constructor is modelled
separately (`evalModule` below); for the dispatch claims only the
identity of the returned `Evaluation` matters. Requires the module to
be present in `bundler.modules` (all of `require`'s call sites guard
this). -/
def evaluateModuleAt (st : RtState) (path : String) : RtState × Option Nat :=
  match st.modules.lookup path with
  | none => (st, none)
  | some m =>
    match m.evalId with
    | some e => (st, some e)
    | none =>
      let e := st.nextEval
      (setModule { st with nextEval := e + 1 } path { m with evalId := some e }, some e)

/-- `Evaluation.require` (`src/bundler/module/Evaluation.ts` lines
55-91), for the module `self`:

1. lines 57-73: if `getBuiltinShimPath` recognizes the specifier, use
   the module already registered at the shim path, or materialize it
   on the fly from `fs.readFileSync` (`new Module(shimPath, shimCode,
   true, bundler)`, then `modules.set`); when that read throws, return
   the literal `{}`;
2. line 75: otherwise look the specifier up in `dependencyMap`;
3. lines 77-84: a miss throws `Dependency ... not collected from ...`;
4. lines 86-90: a hit requires the target to be a registered module,
   else `Module ... has not been transpiled`; evaluate it and return
   its exports. -/
def requireRt (st : RtState) (self : RtModule) (specifier : String) :
    RtState × RequireResult :=
  match getBuiltinShimPath specifier with
  | some shimPath =>
    match st.modules.lookup shimPath with
    | some _ =>
      match evaluateModuleAt st shimPath with
      | (st1, some e) => (st1, RequireResult.exports e)
      | (st1, none) => (st1, RequireResult.emptyObject)
    | none =>
      if shimPath ∈ st.fsFiles then
        let shimModule : RtModule :=
          { filepath := shimPath, source := shimPath, compiled := some shimPath,
            evalId := none, dependencyMap := [] }
        let st1 := setModule st shimPath shimModule
        match evaluateModuleAt st1 shimPath with
        | (st2, some e) => (st2, RequireResult.exports e)
        | (st2, none) => (st2, RequireResult.emptyObject)
      else
        (st, RequireResult.emptyObject)
  | none =>
    match self.dependencyMap.lookup specifier with
    | none => (st, RequireResult.errNotCollected specifier self.filepath)
    | some moduleFilePath =>
      match st.modules.lookup moduleFilePath with
      | none => (st, RequireResult.errNotTranspiled moduleFilePath)
      | some _ =>
        match evaluateModuleAt st moduleFilePath with
        | (st1, some e) => (st1, RequireResult.exports e)
        | (st1, none) => (st1, RequireResult.emptyObject)

/-- A user module performing the `require` calls of the shim-routing and
missing-shim scenarios: freshly compiled, nothing in its
`dependencyMap`. -/
def rtUserModule : RtModule :=
  { filepath := "/index.js", source := "", compiled := some "",
    evalId := none, dependencyMap := [] }

/-! ## Transformation scheduler (C2)

`Bundler.transformModule`, `src/bundler/bundler.ts` lines 522-531, the
`compile()` entry guard (`src/unnamed/part_000` line 90) and
`resetCompilation` (lines 132-163), over the named promise queue. -/

/-- Modelled from the spec: the repository's
`src/utils/NamedPromiseQueue.ts` is not under `src/`; per the spec,
`schedule(path, work)` "returns the existing promise if the path is
already in flight; otherwise starts `work`, records it, and removes the
entry on settlement". For one fixed path the queue state is the
in-flight promise (identified by a creation counter), and settlement
removes it. The rest of this state is from `src/`: `compiled` and
`error` are the path's `Module.compiled != null` / `compilationError
!= null`, and `runs` counts how many times the transformer chain of
`Module.compile` has actually executed (i.e. how often the guard at
`src/unnamed/part_000` line 90 fell through). -/
structure QueueState where
  inFlight : Option Nat
  compiled : Bool
  error : Bool
  runs : Nat
  nextId : Nat
deriving DecidableEq, Repr

/-- The queue state of a path nobody asked about yet. -/
def initQueue : QueueState := 
  { inFlight := none, compiled := false, error := false, runs := 0, nextId := 0 }

/-- One `transformModule(p)` call (`src/bundler/bundler.ts` lines
522-531): if the module exists with `compiled != null`, return an
already-resolved promise (`none`); otherwise hand the job to the queue,
which returns the recorded in-flight promise if there is one and starts
`_transformModule` (whose `module.compile()` runs the transformer chain
only when neither `compiled` nor `compilationError` is set) under a
fresh promise otherwise. -/
def callStep (s : QueueState) : QueueState × Option Nat :=
  if s.compiled then (s, none)
  else
    match s.inFlight with
    | some t => (s, some t)
    | none =>
      let t := s.nextId
      let runs := if s.error then s.runs else s.runs + 1
      ({ s with inFlight := some t, nextId := t + 1, runs := runs }, some t)

/-- The events that can touch the path's scheduling state: a
`transformModule` call, the in-flight job settling (successfully,
setting `compiled`, or with a compilation error), and
`resetCompilation`. -/
inductive QueueEvent where
  | call
  | settleOk
  | settleErr
  | reset
deriving DecidableEq, Repr

/-- One event. Settlement removes the queue entry (spec-modelled, see
`QueueState`); `reset` is `Module.resetCompilation`
(`src/unnamed/part_000` lines 132-163): clear the error, and when the
module was compiled also clear `compiled` and call
`bundler.transformModule` again. -/
def queueStep (s : QueueState) : QueueEvent → QueueState
  | QueueEvent.call => (callStep s).1
  | QueueEvent.settleOk =>
    match s.inFlight with
    | some _ => { s with inFlight := none, compiled := true }
    | none => s
  | QueueEvent.settleErr =>
    match s.inFlight with
    | some _ => { s with inFlight := none, error := true }
    | none => s
  | QueueEvent.reset =>
    let s1 := { s with error := false }
    if s1.compiled then (callStep { s1 with compiled := false }).1 else s1

/-- Run a sequence of events. -/
def runQueue (s : QueueState) (es : List QueueEvent) : QueueState :=
  es.foldl queueStep s

/-! ## Dependency-closure wait (C1)

`Bundler.moduleFinishedPromise`, `src/bundler/bundler.ts` lines
533-565. -/

/-- The per-module data the walk inspects: `compiled`,
`compilationError` and the resolved `dependencies` set (kept in
insertion order). -/
structure GraphModule where
  compiled : Option String
  compilationError : Option String
  dependencies : List String
deriving DecidableEq, Repr

/-- `bundler.modules` as seen by the walk, keyed by path. -/
abbrev ModuleGraph := List (String × GraphModule)

/-- How `moduleFinishedPromise` can reject. `outOfFuel` is the fuel
marker of the embedding, never reached with enough fuel (see
`c1_moduleFinished_closure`). -/
inductive FinishedError where
  /-- `Asset not in the compilation tree <id>` -/
  | assetNotFound (id : String)
  /-- `throw asset.compilationError` -/
  | compilation (e : String)
  /-- `Asset <id> has not been compiled` -/
  | notCompiled (id : String)
  | outOfFuel
deriving DecidableEq, Repr

mutual
/-- `Bundler.moduleFinishedPromise(id, moduleIds)` (`src/bundler/bundler.ts`
lines 533-565), evaluated after all in-flight transformation promises
have settled (the `await foundPromise` at lines 536-539 then only
orders the walk): return at once when `id` was already visited; reject
when the id has no module, when the module carries a
`compilationError` (rethrown as-is), or when it is still uncompiled;
otherwise add `id` to the visited set and recurse into its
dependencies, skipping already-visited ones and propagating the first
rejection. The successful value is the final visited set (the shared
mutable `moduleIds`). -/
def moduleFinished (fuel : Nat) (g : ModuleGraph) (id : String)
    (visited : List String) : Except FinishedError (List String) :=
  match fuel with
  | 0 => Except.error FinishedError.outOfFuel
  | f + 1 =>
    if id ∈ visited then Except.ok visited
    else
      match g.lookup id with
      | none => Except.error (FinishedError.assetNotFound id)
      | some asset =>
        match asset.compilationError with
        | some e => Except.error (FinishedError.compilation e)
        | none =>
          if asset.compiled = none then Except.error (FinishedError.notCompiled id)
          else moduleFinishedDeps f g asset.dependencies (id :: visited)
termination_by (fuel, 0)

/-- The `for (const dep of asset.dependencies)` loop of
`moduleFinishedPromise` (lines 554-564). -/
def moduleFinishedDeps (fuel : Nat) (g : ModuleGraph) (deps : List String)
    (visited : List String) : Except FinishedError (List String) :=
  match deps with
  | [] => Except.ok visited
  | d :: rest =>
    if d ∈ visited then moduleFinishedDeps fuel g rest visited
    else
      match moduleFinished fuel g d visited with
      | Except.error e => Except.error e
      | Except.ok visited1 => moduleFinishedDeps fuel g rest visited1
termination_by (fuel, deps.length + 1)
end

/-- A module of the graph that compiled successfully. -/
def goodModule (g : ModuleGraph) (x : String) : Prop :=
  ∃ m, List.lookup x g = some m ∧ m.compiled ≠ none ∧ m.compilationError = none

/-- Reachability from `root` along dependency edges of the module
graph. -/
inductive Reaches (g : ModuleGraph) : String → String → Prop where
  | refl (x : String) : Reaches g x x
  | step {x y z : String} {m : GraphModule} :
      Reaches g x y → List.lookup y g = some m → z ∈ m.dependencies →
      Reaches g x z

/-- The number of graph keys not yet visited: the measure showing the
visited set makes the walk terminate. -/
def remainingKeys (g : ModuleGraph) (visited : List String) : Nat :=
  ((g.map Prod.fst).filter (fun k => decide (k ∉ visited))).length

/-! ## Evaluation of a module graph (C5)

`Module.evaluate` (`src/unnamed/part_000` lines 165-190) together with
the `Evaluation` constructor (`src/bundler/module/Evaluation.ts` lines
46-53), which synchronously executes the module's compiled code. -/

/-- A compiled module as the evaluator sees it: executing its code
performs, in order, one `require` per entry of `requiresList` (already
resolved to module paths via `dependencyMap`). The exports object the
code finally produces is abstracted by the identity of the `Evaluation`
instance, as in `RtModule`. -/
structure EvalNode where
  requiresList : List String
deriving DecidableEq, Repr

/-- The evaluation state: which modules already carry a cached
`Evaluation` (`module.evaluation`), keyed by path, with the id counter
for fresh instances. -/
abbrev EvalCache := List (String × Nat)

mutual
/-- `Module.evaluate()` for the module at `path`
(`src/unnamed/part_000` lines 165-190): if `this.evaluation` is set,
return it immediately (no code runs). Otherwise run
`new Evaluation(this)` -- which executes the compiled code, performing
each `require` in program order, recursively evaluating the required
modules -- and only *after the constructor returns* store the fresh
`Evaluation` in `this.evaluation` (the assignment on line 180 happens
when the right-hand side has finished). Results carry the updated
cache, the returned instance id, the next counter value, and the trace
of module codes that were executed to completion. `none` means the
evaluation did not complete within `fuel` nested calls (or a required
module is missing from the graph). -/
def evalModule (fuel : Nat) (g : List (String × EvalNode)) (path : String)
    (cache : EvalCache) (next : Nat) : Option (EvalCache × Nat × Nat × List String) :=
  match fuel with
  | 0 => none
  | f + 1 =>
    match cache.lookup path with
    | some e => some (cache, e, next, [])
    | none =>
      match g.lookup path with
      | none => none
      | some node =>
        match evalRequires f g node.requiresList cache next with
        | none => none
        | some (cache1, next1, trace) =>
          some ((path, next1) :: cache1, next1, next1 + 1, trace ++ [path])
termination_by (fuel, 0)

/-- The sequence of `require` calls the compiled code makes while it
runs (each one is `Evaluation.require` line 90:
`module.evaluate().context.exports`). -/
def evalRequires (fuel : Nat) (g : List (String × EvalNode)) (specs : List String)
    (cache : EvalCache) (next : Nat) : Option (EvalCache × Nat × List String) :=
  match specs with
  | [] => some (cache, next, [])
  | p :: rest =>
    match evalModule fuel g p cache next with
    | none => none
    | some (cache1, _, next1, trace1) =>
      match evalRequires fuel g rest cache1 next1 with
      | none => none
      | some (cache2, next2, trace2) => some (cache2, next2, trace1 ++ trace2)
termination_by (fuel, specs.length + 1)
end

/-- The two-module cyclic import graph of the claim: `/a.js` requires
`/b.js` and `/b.js` requires `/a.js`. -/
def cycleGraph : List (String × EvalNode) :=
  [ ("/a.js", { requiresList := ["/b.js"] }),
    ("/b.js", { requiresList := ["/a.js"] }) ]

/-- Evaluation of `path` never completes, whatever the nesting budget. -/
def EvalDiverges (g : List (String × EvalNode)) (path : String) : Prop :=
  ∀ fuel next, evalModule fuel g path [] next = none

/-! ## Auxiliary predicates used by the theorems -/

/-- Scheduler invariant: the transformer chain has run exactly once iff
the path has reached any of the states that the `compile()` guard or
`transformModule` short-circuit on (compiled, errored, or a job in
flight), and has never run otherwise. -/
def QueueInv (s : QueueState) : Prop :=
  s.runs = (if s.compiled = true ∨ s.error = true ∨ s.inFlight.isSome then 1 else 0)

/-- All dependency edges out of `x` (per the graph) land inside `w`. -/
def depsIn (g : ModuleGraph) (x : String) (w : List String) : Prop :=
  ∀ m, List.lookup x g = some m → ∀ dep ∈ m.dependencies, dep ∈ w

/-! ## General list lemmas -/

theorem mem_keys_of_lookup {α β : Type} [BEq α] [LawfulBEq α]
    (l : List (α × β)) (a : α) (b : β) (h : List.lookup a l = some b) :
    a ∈ l.map Prod.fst := by
  induction l with
  | nil => simp [List.lookup] at h
  | cons hd tl ih =>
    rw [List.lookup] at h
    by_cases hab : a = hd.1
    · simp [hab]
    · have : (a == hd.1) = false := beq_eq_false_iff_ne.mpr hab
      rw [this] at h
      simp [ih h]

theorem length_filter_not_mem_le (l : List String) (a : String) (v : List String) :
    ((l.filter (fun k => decide (k ∉ a :: v))).length ≤
      (l.filter (fun k => decide (k ∉ v))).length) := by
  refine List.Sublist.length_le (List.monotone_filter_right l ?_)
  intro k hk
  simp only [decide_eq_true_eq] at hk ⊢
  exact fun hv => hk (List.mem_cons_of_mem a hv)

theorem length_filter_not_mem_lt (l : List String) (a : String) (v : List String)
    (hal : a ∈ l) (hav : a ∉ v) :
    ((l.filter (fun k => decide (k ∉ a :: v))).length <
      (l.filter (fun k => decide (k ∉ v))).length) := by
  induction l with
  | nil => simp at hal
  | cons x xs ih =>
    by_cases hxa : x = a
    · subst hxa
      have hp : decide (x ∉ x :: v) = false := by simp
      have hq : decide (x ∉ v) = true := by simpa using hav
      simp only [List.filter_cons, hp, hq, if_false, if_true, List.length_cons,
        Bool.false_eq_true, if_true, reduceIte]
      exact Nat.lt_succ_of_le (length_filter_not_mem_le xs x v)
    · have hal2 : a ∈ xs := by
        rcases List.mem_cons.mp hal with h | h
        · exact absurd h.symm hxa
        · exact h
      by_cases hxv : x ∈ v
      · have hp : decide (x ∉ a :: v) = false := by
          simp [List.mem_cons_of_mem a hxv]
        have hq : decide (x ∉ v) = false := by simp [hxv]
        simp only [List.filter_cons, hp, hq, Bool.false_eq_true, reduceIte]
        exact ih hal2
      · have hp : decide (x ∉ a :: v) = true := by
          simp only [decide_eq_true_eq]
          intro hmem
          rcases List.mem_cons.mp hmem with h | h
          · exact hxa h
          · exact hxv h
        have hq : decide (x ∉ v) = true := by simpa using hxv
        simp only [List.filter_cons, hp, hq, reduceIte, List.length_cons]
        exact Nat.succ_lt_succ (ih hal2)

theorem remainingKeys_cons_lt (g : ModuleGraph) (id : String) (v : List String)
    (hid : id ∈ g.map Prod.fst) (hv : id ∉ v) :
    remainingKeys g (id :: v) < remainingKeys g v :=
  length_filter_not_mem_lt (g.map Prod.fst) id v hid hv

theorem remainingKeys_le_of_subset (g : ModuleGraph) (v w : List String)
    (h : ∀ x ∈ v, x ∈ w) :
    remainingKeys g w ≤ remainingKeys g v := by
  refine List.Sublist.length_le (List.monotone_filter_right (g.map Prod.fst) ?_)
  intro k hk
  simp only [decide_eq_true_eq] at hk ⊢
  exact fun hkv => hk (h k hkv)

/-! ## Claim theorems -/

/-- C10: for every preset name outside the registered set
{react, solid, vanilla, static, html}, `getPreset` returns the React
preset instead of failing (it is a total function), and the names
`static` and `html` map to the vanilla preset. -/
theorem c10_get_preset :
    (∀ s : String, s ∉ ["react", "solid", "vanilla", "static", "html"] →
      getPreset s = PresetKind.react) ∧
    getPreset "static" = PresetKind.vanilla ∧
    getPreset "html" = PresetKind.vanilla ∧
    getPreset "react" = PresetKind.react ∧
    getPreset "solid" = PresetKind.solid ∧
    getPreset "vanilla" = PresetKind.vanilla := by
  refine ⟨?_, by decide, by decide, by decide, by decide, by decide⟩
  intro s hs
  simp only [List.mem_cons, List.not_mem_nil, or_false, not_or] at hs
  obtain ⟨h1, h2, h3, h4, h5⟩ := hs
  have e1 : (s == "react") = false := beq_eq_false_iff_ne.mpr h1
  have e2 : (s == "solid") = false := beq_eq_false_iff_ne.mpr h2
  have e3 : (s == "vanilla") = false := beq_eq_false_iff_ne.mpr h3
  have e4 : (s == "static") = false := beq_eq_false_iff_ne.mpr h4
  have e5 : (s == "html") = false := beq_eq_false_iff_ne.mpr h5
  simp [getPreset, presetMap, List.lookup, e1, e2, e3, e4, e5]

/-- Witness for C10 at the unregistered template name `angular`. -/
theorem c10_witness : getPreset "angular" = PresetKind.react :=
  c10_get_preset.1 "angular" (by decide)

/-- C9: when `/package.json` exists but `JSON.parse` fails,
`processPackageJSON` leaves the previously parsed package.json in place
and returns normally; the parse error propagates exactly when no
package.json was ever successfully parsed (`parsedPackageJSON` still
null). -/
theorem c9_invalid_package_json :
    (∀ (prev : IPackageJSON) (content : String) (parse : String → Option IPackageJSON),
      parse content = none →
      processPackageJSON (some prev) (some content) parse = Except.ok (some prev)) ∧
    (∀ (content : String) (parse : String → Option IPackageJSON),
      parse content = none →
      processPackageJSON none (some content) parse =
        Except.error PkgJSONError.parseErrorProp) := by
  constructor
  · intro prev content parse h
    simp [processPackageJSON, h]
  · intro content parse h
    simp [processPackageJSON, h]

/-- Witness for C9: an instance whose parse fails while an older parse
is retained. -/
theorem c9_witness :
    processPackageJSON (some { raw := "old" }) (some "this is not json")
      (fun _ => none) = Except.ok (some { raw := "old" }) :=
  c9_invalid_package_json.1 { raw := "old" } "this is not json" (fun _ => none) rfl

/-- C7 counterexample: on the dependency map `react: ">=17.0.0 <19.0.0"`
the fallback manifest carries the version `"17.0.0 19.0.0"` -- the `<`
in the middle of the range was deleted too -- which differs from the
version stripped only of leading range operators
(`"17.0.0 <19.0.0"`), so the fallback does not merely strip leading
range operators as the claim states. -/
theorem c7_counterexample :
    fallbackManifest [("react", ">=17.0.0 <19.0.0")] =
      [{ n := "react", v := "17.0.0 19.0.0", d := 0 }] ∧
    stripLeadingRangeOps ">=17.0.0 <19.0.0" = "17.0.0 <19.0.0" ∧
    ("17.0.0 19.0.0" : String) ≠ "17.0.0 <19.0.0" := by
  refine ⟨by decide, by decide, by decide⟩

theorem stripRangeOps_no_ops (version : String) (c : Char) (hc : c ∈ rangeOpChars) :
    c ∉ (stripRangeOps version).toList := by
  intro hmem
  have : c ∈ version.toList.filter (fun x => !(rangeOpChars.contains x)) := hmem
  have h2 := (List.mem_filter.mp this).2
  have h3 : rangeOpChars.contains c = true := by
    fin_cases hc <;> decide
  rw [h3] at h2
  simp at h2

theorem fallbackManifestFrom_map_n (i : Nat) (deps : List (String × String)) :
    (fallbackManifestFrom i deps).map IResolvedDependency.n = deps.map Prod.fst := by
  induction deps generalizing i with
  | nil => rfl
  | cons hd tl ih => simp [fallbackManifestFrom, ih]

theorem fallbackManifestFrom_map_d (i : Nat) (deps : List (String × String)) :
    (fallbackManifestFrom i deps).map IResolvedDependency.d =
      List.range' i deps.length := by
  induction deps generalizing i with
  | nil => rfl
  | cons hd tl ih => simp [fallbackManifestFrom, ih, List.range']

theorem fallbackManifestFrom_version_ok (i : Nat) (deps : List (String × String)) :
    ∀ entry ∈ fallbackManifestFrom i deps,
      entry.v ≠ "" ∧ ∀ c ∈ rangeOpChars, c ∉ entry.v.toList := by
  induction deps generalizing i with
  | nil => intro entry h; simp [fallbackManifestFrom] at h
  | cons hd tl ih =>
    intro entry h
    rcases List.mem_cons.mp h with h | h
    · subst h
      constructor
      · by_cases hs : stripRangeOps hd.2 = "" <;> simp [hs]
      · intro c hc
        by_cases hs : stripRangeOps hd.2 = ""
        · simp only [hs, if_true, reduceIte]
          fin_cases hc <;> decide
        · simp only [hs, reduceIte]
          exact stripRangeOps_no_ops hd.2 c hc
    · exact ih (i + 1) entry h

/-- C7 (amended): when the primary CDN manifest fetch fails,
`fetchManifest` returns a manifest listing exactly the direct
dependencies of the input map, in order; every version range has all
occurrences of the range-operator characters removed (with `latest`
substituted when nothing remains), and the depth of each entry is its
index. -/
theorem c7_fallback_manifest (deps : List (String × String)) :
    ((fallbackManifest deps).map IResolvedDependency.n = deps.map Prod.fst) ∧
    ((fallbackManifest deps).map IResolvedDependency.d = List.range deps.length) ∧
    (∀ entry ∈ fallbackManifest deps,
      entry.v ≠ "" ∧ ∀ c ∈ rangeOpChars, c ∉ entry.v.toList) := by
  refine ⟨fallbackManifestFrom_map_n 0 deps, ?_, fallbackManifestFrom_version_ok 0 deps⟩
  rw [fallbackManifest, fallbackManifestFrom_map_d 0 deps, List.range_eq_range']

/-- Witness for C7 at the caret range `^1.2.3`. -/
theorem c7_witness :
    (fallbackManifest [("react", "^1.2.3")]).map IResolvedDependency.n = ["react"] ∧
    ('^' ∉ ({ n := "react", v := "1.2.3", d := 0 } : IResolvedDependency).v.toList) :=
  ⟨(c7_fallback_manifest [("react", "^1.2.3")]).1,
    ((c7_fallback_manifest [("react", "^1.2.3")]).2.2
      { n := "react", v := "1.2.3", d := 0 } (by decide)).2 '^' (by decide)⟩

/-- C3: the biconditional `compiled == null ⇔ compilationError != null ∨
compile not yet attempted` is broken by `Module.compile` itself: when a
transformer *returns* a `BundlerError` (rather than throwing), the loop
records it in `compilationError` but still falls through to
`this.compiled = code` (`src/unnamed/part_000` line 126), leaving the
module with `compiled != null` and `compilationError != null` at once --
the very state the code's own comment at line 133 ("this will be
non-null while compilation is null") rules out. This theorem evaluates
`compile()` on a fresh module whose single transformer reports an
error. -/
theorem c3_compile_error_state :
    (compileModule (freshModule "const x = 1")
        (some [TransformOutcome.err "SyntaxError: unexpected token"])).compiled =
      some "const x = 1" ∧
    (compileModule (freshModule "const x = 1")
        (some [TransformOutcome.err "SyntaxError: unexpected token"])).compilationError =
      some "SyntaxError: unexpected token" := by
  constructor <;> rfl

/-- C8 counterexample: a non-hot module whose compilation previously
failed (`compiled == null`, `compilationError != null`). The claim says
`resetCompilation` clears all three fields and, the module not being
hot, escalates to a full page reload; the code instead returns right
after clearing `compilationError` (early return at
`src/unnamed/part_000` line 137): no reload happens and nothing is
re-scheduled. -/
theorem c8_counterexample :
    resetCompilation
        { compiled := none, evaluation := none,
          compilationError := some "SyntaxError: unexpected token",
          isHot := false, isDirty := false } =
      { state := { compiled := none, evaluation := none, compilationError := none,
                   isHot := false, isDirty := false },
        reloaded := false, rescheduled := false } := by
  rfl

/-- C8 (amended): `resetCompilation` always clears `compilationError`;
when `compiled` is already null it stops there (no reload, no dirty
marking, no re-scheduling, `evaluation` untouched). Otherwise it clears
`compiled` and `evaluation` and re-schedules the module's
transformation; a hot module is marked dirty without reloading, a
non-hot module triggers a full page reload. -/
theorem c8_reset_compilation (m : ResetModuleState) :
    ((resetCompilation m).state.compilationError = none) ∧
    (m.compiled = none →
      resetCompilation m =
        { state := { m with compilationError := none },
          reloaded := false, rescheduled := false }) ∧
    (m.compiled ≠ none →
      (resetCompilation m).state.compiled = none ∧
      (resetCompilation m).state.evaluation = none ∧
      (resetCompilation m).rescheduled = true ∧
      (m.isHot = true →
        (resetCompilation m).state.isDirty = true ∧
        (resetCompilation m).reloaded = false) ∧
      (m.isHot = false →
        (resetCompilation m).reloaded = true ∧
        (resetCompilation m).state.isDirty = m.isDirty)) := by
  obtain ⟨c, ev, er, hot, d⟩ := m
  cases c <;> cases hot <;> simp [resetCompilation]

/-- Witness for C8: a compiled non-hot module does trigger the full
reload. -/
theorem c8_witness :
    (resetCompilation
        { compiled := some "code", evaluation := some 0,
          compilationError := none, isHot := false, isDirty := false }).reloaded = true :=
  (((c8_reset_compilation
      { compiled := some "code", evaluation := some 0,
        compilationError := none, isHot := false, isDirty := false }).2.2
    (by decide)).2.2.2.2 rfl).1

/-- C4 counterexample: `require("console")` from a user module whose
`dependencyMap` does not contain `"console"`, against the bundler's
initial state. `console` is in `NODE_BUILTIN_MODULES`, so the
dependency-map lookup is never consulted; `writeNodeBuiltinShims`
writes no `/node_modules/console/index.js`, so the materialization
read throws and `require` returns a bare `{}` (Evaluation.ts line 69):
the state is unchanged (no shim module materialized or evaluated) and
no error naming the specifier and origin is raised, contradicting both
disjuncts of the claim. -/
theorem c4_counterexample :
    requireRt defaultRtState rtUserModule "console" =
      (defaultRtState, RequireResult.emptyObject) ∧
    getBuiltinShimPath "console" = some "/node_modules/console/index.js" ∧
    rtUserModule.dependencyMap.lookup "console" = none ∧
    "/node_modules/console/index.js" ∉ defaultRtState.fsFiles := by
  refine ⟨by decide, by decide, by decide, by decide⟩

/-- C4 (amended): `require(spec)` checks whether `spec` names a Node
built-in (with or without the `node:` prefix) *before* consulting the
dependency map: a built-in is served by evaluating the module at its
shim path, materialized on demand from the FS, with a bare `{}`
returned when no shim file exists; only for non-built-in specifiers is
`dependencyMap` consulted, a miss failing with a descriptive error
naming the offending specifier and the requiring module's path (and a
hit on an untranspiled module failing with an error naming that
path). -/
theorem c4_require_order (st : RtState) (self : RtModule) (specifier : String) :
    (∀ shimPath, getBuiltinShimPath specifier = some shimPath →
      st.modules.lookup shimPath = none → shimPath ∉ st.fsFiles →
      requireRt st self specifier = (st, RequireResult.emptyObject)) ∧
    (∀ shimPath, getBuiltinShimPath specifier = some shimPath →
      st.modules.lookup shimPath = none → shimPath ∈ st.fsFiles →
      requireRt st self specifier =
        (setModule { st with nextEval := st.nextEval + 1 } shimPath
          { filepath := shimPath, source := shimPath, compiled := some shimPath,
            evalId := some st.nextEval, dependencyMap := [] },
         RequireResult.exports st.nextEval)) ∧
    (getBuiltinShimPath specifier = none →
      self.dependencyMap.lookup specifier = none →
      requireRt st self specifier =
        (st, RequireResult.errNotCollected specifier self.filepath)) ∧
    (∀ p, getBuiltinShimPath specifier = none →
      self.dependencyMap.lookup specifier = some p →
      st.modules.lookup p = none →
      requireRt st self specifier = (st, RequireResult.errNotTranspiled p)) := by
  refine ⟨?_, ?_, ?_, ?_⟩
  · intro shimPath hshim hmod hfs
    simp [requireRt, hshim, hmod, hfs]
  · intro shimPath hshim hmod hfs
    simp only [requireRt, hshim, hmod, hfs, if_true, reduceIte]
    simp [evaluateModuleAt, setModule, List.lookup]
  · intro hshim hdep
    simp [requireRt, hshim, hdep]
  · intro p hshim hdep hmod
    simp [requireRt, hshim, hdep, hmod]

/-- Witness for C4: a relative specifier missing from the dependency
map produces the descriptive error. -/
theorem c4_witness :
    requireRt defaultRtState rtUserModule "./missing" =
      (defaultRtState, RequireResult.errNotCollected "./missing" "/index.js") :=
  (c4_require_order defaultRtState rtUserModule "./missing").2.2.1 (by decide) (by decide)

/-- C6: `require("stream")` and `require("node:stream")` both resolve to
the shim path `/node_modules/stream/index.js`, which
`writeNodeBuiltinShims` seeded into the memory FS at construction; run
one after the other from a user module against the freshly constructed
bundler, both calls return the exports of the same Evaluation instance
(the first call materializes and evaluates the shim module, the second
finds it registered and gets the cached evaluation). -/
theorem c6_shim_routing :
    getBuiltinShimPath "stream" = some "/node_modules/stream/index.js" ∧
    getBuiltinShimPath "node:stream" = some "/node_modules/stream/index.js" ∧
    "/node_modules/stream/index.js" ∈ defaultMemoryFiles ∧
    (requireRt defaultRtState rtUserModule "stream").2 = RequireResult.exports 0 ∧
    (requireRt (requireRt defaultRtState rtUserModule "stream").1 rtUserModule
        "node:stream").2 = RequireResult.exports 0 := by
  refine ⟨by decide, by decide, by decide, by decide, by decide⟩

/-! ## Scheduler lemmas (C2) -/

theorem callStep_of_inFlight (s : QueueState) (t : Nat)
    (h1 : s.inFlight = some t) (h2 : s.compiled = false) :
    callStep s = (s, some t) := by
  simp [callStep, h1, h2]

theorem queueStep_preserves_inFlight (s : QueueState) (t : Nat) (e : QueueEvent)
    (h1 : s.inFlight = some t) (h2 : s.compiled = false)
    (hok : e ≠ QueueEvent.settleOk) (herr : e ≠ QueueEvent.settleErr) :
    (queueStep s e).inFlight = some t ∧ (queueStep s e).compiled = false := by
  cases e with
  | call => simp [queueStep, callStep, h1, h2]
  | settleOk => exact absurd rfl hok
  | settleErr => exact absurd rfl herr
  | reset => simp [queueStep, h1, h2]

theorem runQueue_preserves_inFlight (es : List QueueEvent) :
    ∀ (s : QueueState) (t : Nat), s.inFlight = some t → s.compiled = false →
    (∀ e ∈ es, e ≠ QueueEvent.settleOk ∧ e ≠ QueueEvent.settleErr) →
    (runQueue s es).inFlight = some t ∧ (runQueue s es).compiled = false := by
  induction es with
  | nil => intro s t h1 h2 _; exact ⟨h1, h2⟩
  | cons e rest ih =>
    intro s t h1 h2 hes
    have he := hes e (List.mem_cons_self e rest)
    have hstep := queueStep_preserves_inFlight s t e h1 h2 he.1 he.2
    exact ih (queueStep s e) t hstep.1 hstep.2
      (fun x hx => hes x (List.mem_cons_of_mem e hx))

theorem queueInv_step (s : QueueState) (e : QueueEvent)
    (h : QueueInv s) (he : e ≠ QueueEvent.reset) : QueueInv (queueStep s e) := by
  obtain ⟨f, c, er, r, n⟩ := s
  cases e with
  | call =>
    cases c <;> cases er <;> cases f <;>
      simp_all [QueueInv, queueStep, callStep]
  | settleOk =>
    cases c <;> cases er <;> cases f <;>
      simp_all [QueueInv, queueStep]
  | settleErr =>
    cases c <;> cases er <;> cases f <;>
      simp_all [QueueInv, queueStep]
  | reset => exact absurd rfl he

theorem queueStep_call_runs (s : QueueState) (h : QueueInv s) :
    (queueStep s QueueEvent.call).runs = 1 := by
  obtain ⟨f, c, er, r, n⟩ := s
  cases c <;> cases er <;> cases f <;>
    simp_all [QueueInv, queueStep, callStep]

theorem queueStep_runs_keep (s : QueueState) (e : QueueEvent)
    (he : e ≠ QueueEvent.reset) (hc : e ≠ QueueEvent.call) :
    (queueStep s e).runs = s.runs := by
  obtain ⟨f, c, er, r, n⟩ := s
  cases e with
  | call => exact absurd rfl hc
  | settleOk => cases f <;> simp [queueStep]
  | settleErr => cases f <;> simp [queueStep]
  | reset => exact absurd rfl he

theorem runQueue_runs_one (es : List QueueEvent) :
    ∀ s : QueueState, QueueInv s →
    (∀ e ∈ es, e ≠ QueueEvent.reset) →
    QueueInv (runQueue s es) ∧
    ((QueueEvent.call ∈ es ∨ s.runs = 1) → (runQueue s es).runs = 1) := by
  induction es with
  | nil =>
    intro s hs _
    refine ⟨hs, ?_⟩
    rintro (h | h)
    · simp at h
    · exact h
  | cons e rest ih =>
    intro s hs hes
    have he := hes e (List.mem_cons_self e rest)
    have hs2 : QueueInv (queueStep s e) := queueInv_step s e hs he
    have hrest : ∀ x ∈ rest, x ≠ QueueEvent.reset :=
      fun x hx => hes x (List.mem_cons_of_mem e hx)
    refine ⟨(ih (queueStep s e) hs2 hrest).1, ?_⟩
    rintro (hmem | hruns)
    · rcases List.mem_cons.mp hmem with hcall | hmem2
      · cases hcall
        exact (ih (queueStep s QueueEvent.call) hs2 hrest).2
          (Or.inr (queueStep_call_runs s hs))
      · exact (ih (queueStep s e) hs2 hrest).2 (Or.inl hmem2)
    · by_cases hc : e = QueueEvent.call
      · cases hc
        exact (ih (queueStep s QueueEvent.call) hs2 hrest).2
          (Or.inr (queueStep_call_runs s hs))
      · have hkeep : (queueStep s e).runs = 1 := by
          rw [queueStep_runs_keep s e he hc]; exact hruns
        exact (ih (queueStep s e) hs2 hrest).2 (Or.inr hkeep)

/-- C2: at most one transformation task per path. First conjunct (the
promise-coalescing part): while a task `t` for the path is in flight
and the module is not yet compiled, any sequence of further
`transformModule` calls and `resetCompilation` calls (anything but the
settlement of the job itself) leaves `t` in flight, and a further
`transformModule` call returns that same promise `t` without touching
the state. Second conjunct: starting from the initial state, under any
event sequence that contains no `resetCompilation`, the transformer
chain of `Module.compile` runs at most once, and exactly once as soon
as one `transformModule` call occurred -- concurrent calls coalesce
onto one compile. -/
theorem c2_at_most_one_compile :
    (∀ (s : QueueState) (t : Nat) (es : List QueueEvent),
      s.inFlight = some t → s.compiled = false →
      (∀ e ∈ es, e ≠ QueueEvent.settleOk ∧ e ≠ QueueEvent.settleErr) →
      callStep (runQueue s es) = (runQueue s es, some t)) ∧
    (∀ es : List QueueEvent, (∀ e ∈ es, e ≠ QueueEvent.reset) →
      (runQueue initQueue es).runs ≤ 1 ∧
      (QueueEvent.call ∈ es → (runQueue initQueue es).runs = 1)) := by
  constructor
  · intro s t es h1 h2 hes
    have h := runQueue_preserves_inFlight es s t h1 h2 hes
    exact callStep_of_inFlight (runQueue s es) t h.1 h.2
  · intro es hes
    have hinit : QueueInv initQueue := by simp [QueueInv, initQueue]
    have h := runQueue_runs_one es initQueue hinit hes
    constructor
    · rw [h.1]
      split <;> omega
    · intro hc
      exact h.2 (Or.inl hc)

/-- Witness for C2: two back-to-back `transformModule` calls run the
compile once. -/
theorem c2_witness :
    (runQueue initQueue [QueueEvent.call, QueueEvent.call]).runs = 1 :=
  (c2_at_most_one_compile.2 [QueueEvent.call, QueueEvent.call] (by decide)).2 (by decide)

/-! ## Walk lemmas (C1) -/

theorem moduleFinished_zero (g : ModuleGraph) (id : String) (v : List String) :
    moduleFinished 0 g id v = Except.error FinishedError.outOfFuel := by
  rw [moduleFinished]

theorem moduleFinished_succ (f : Nat) (g : ModuleGraph) (id : String) (v : List String) :
    moduleFinished (f + 1) g id v =
      (if id ∈ v then Except.ok v
       else
        match List.lookup id g with
        | none => Except.error (FinishedError.assetNotFound id)
        | some asset =>
          match asset.compilationError with
          | some e => Except.error (FinishedError.compilation e)
          | none =>
            if asset.compiled = none then Except.error (FinishedError.notCompiled id)
            else moduleFinishedDeps f g asset.dependencies (id :: v)) := by
  rw [moduleFinished]

theorem moduleFinishedDeps_nil (f : Nat) (g : ModuleGraph) (v : List String) :
    moduleFinishedDeps f g [] v = Except.ok v := by
  rw [moduleFinishedDeps]

theorem moduleFinishedDeps_cons (f : Nat) (g : ModuleGraph) (d : String)
    (rest : List String) (v : List String) :
    moduleFinishedDeps f g (d :: rest) v =
      (if d ∈ v then moduleFinishedDeps f g rest v
       else
        match moduleFinished f g d v with
        | Except.error e => Except.error e
        | Except.ok v1 => moduleFinishedDeps f g rest v1) := by
  rw [moduleFinishedDeps]

theorem moduleFinished_subset_all (fuel : Nat) :
    (∀ (g : ModuleGraph) (id : String) (v v1 : List String),
      moduleFinished fuel g id v = Except.ok v1 → ∀ x ∈ v, x ∈ v1) ∧
    (∀ (g : ModuleGraph) (deps : List String) (v v1 : List String),
      moduleFinishedDeps fuel g deps v = Except.ok v1 → ∀ x ∈ v, x ∈ v1) := by
  induction fuel with
  | zero =>
    constructor
    · intro g id v v1 h
      rw [moduleFinished_zero] at h
      cases h
    · intro g deps
      induction deps with
      | nil =>
        intro v v1 h
        rw [moduleFinishedDeps_nil] at h
        cases h
        exact fun x hx => hx
      | cons d rest ihd =>
        intro v v1 h
        rw [moduleFinishedDeps_cons] at h
        by_cases hd : d ∈ v
        · rw [if_pos hd] at h
          exact ihd v v1 h
        · rw [if_neg hd, moduleFinished_zero] at h
          cases h
  | succ f ih =>
    have hF : ∀ (g : ModuleGraph) (id : String) (v v1 : List String),
        moduleFinished (f + 1) g id v = Except.ok v1 → ∀ x ∈ v, x ∈ v1 := by
      intro g id v v1 h
      rw [moduleFinished_succ] at h
      by_cases hid : id ∈ v
      · rw [if_pos hid] at h
        cases h
        exact fun x hx => hx
      · rw [if_neg hid] at h
        cases hlk : List.lookup id g with
        | none => rw [hlk] at h; cases h
        | some asset =>
          rw [hlk] at h
          dsimp only at h
          cases herr : asset.compilationError with
          | some e => rw [herr] at h; cases h
          | none =>
            rw [herr] at h
            dsimp only at h
            by_cases hcomp : asset.compiled = none
            · rw [if_pos hcomp] at h; cases h
            · rw [if_neg hcomp] at h
              intro x hx
              exact ih.2 g asset.dependencies (id :: v) v1 h x
                (List.mem_cons_of_mem id hx)
    refine ⟨hF, ?_⟩
    intro g deps
    induction deps with
    | nil =>
      intro v v1 h
      rw [moduleFinishedDeps_nil] at h
      cases h
      exact fun x hx => hx
    | cons d rest ihd =>
      intro v v1 h
      rw [moduleFinishedDeps_cons] at h
      by_cases hd : d ∈ v
      · rw [if_pos hd] at h
        exact ihd v v1 h
      · rw [if_neg hd] at h
        cases hmf : moduleFinished (f + 1) g d v with
        | error e => rw [hmf] at h; cases h
        | ok v2 =>
          rw [hmf] at h
          intro x hx
          exact ihd v2 v1 h x (hF g d v v2 hmf x hx)

theorem depsIn_mono (g : ModuleGraph) (x : String) (w w2 : List String)
    (h : depsIn g x w) (hw : ∀ y ∈ w, y ∈ w2) : depsIn g x w2 :=
  fun m hm dep hdep => hw _ (h m hm dep hdep)

theorem moduleFinished_sound_all (fuel : Nat) :
    (∀ (g : ModuleGraph) (id : String) (v v1 : List String),
      moduleFinished fuel g id v = Except.ok v1 →
      id ∈ v1 ∧ ∀ x ∈ v1, x ∉ v → goodModule g x ∧ depsIn g x v1) ∧
    (∀ (g : ModuleGraph) (deps : List String) (v v1 : List String),
      moduleFinishedDeps fuel g deps v = Except.ok v1 →
      (∀ d ∈ deps, d ∈ v1) ∧ ∀ x ∈ v1, x ∉ v → goodModule g x ∧ depsIn g x v1) := by
  induction fuel with
  | zero =>
    constructor
    · intro g id v v1 h
      rw [moduleFinished_zero] at h
      cases h
    · intro g deps
      induction deps with
      | nil =>
        intro v v1 h
        rw [moduleFinishedDeps_nil] at h
        cases h
        exact ⟨by simp, fun x hx hxv => absurd hx hxv⟩
      | cons d rest ihd =>
        intro v v1 h
        rw [moduleFinishedDeps_cons] at h
        by_cases hd : d ∈ v
        · rw [if_pos hd] at h
          have hsub := (moduleFinished_subset_all 0).2 g rest v v1 h
          refine ⟨?_, (ihd v v1 h).2⟩
          intro x hx
          rcases List.mem_cons.mp hx with hxd | hxr
          · subst hxd; exact hsub x hd
          · exact (ihd v v1 h).1 x hxr
        · rw [if_neg hd, moduleFinished_zero] at h
          cases h
  | succ f ih =>
    have hF : ∀ (g : ModuleGraph) (id : String) (v v1 : List String),
        moduleFinished (f + 1) g id v = Except.ok v1 →
        id ∈ v1 ∧ ∀ x ∈ v1, x ∉ v → goodModule g x ∧ depsIn g x v1 := by
      intro g id v v1 h
      rw [moduleFinished_succ] at h
      by_cases hid : id ∈ v
      · rw [if_pos hid] at h
        cases h
        exact ⟨hid, fun x hx hxv => absurd hx hxv⟩
      · rw [if_neg hid] at h
        cases hlk : List.lookup id g with
        | none => rw [hlk] at h; cases h
        | some asset =>
          rw [hlk] at h
          dsimp only at h
          cases herr : asset.compilationError with
          | some e => rw [herr] at h; cases h
          | none =>
            rw [herr] at h
            dsimp only at h
            by_cases hcomp : asset.compiled = none
            · rw [if_pos hcomp] at h; cases h
            · rw [if_neg hcomp] at h
              have hsub := (moduleFinished_subset_all f).2 g asset.dependencies
                (id :: v) v1 h
              have hdeps := (ih.2 g asset.dependencies (id :: v) v1 h).1
              have hP := (ih.2 g asset.dependencies (id :: v) v1 h).2
              have hidv1 : id ∈ v1 := hsub id (List.mem_cons_self id v)
              refine ⟨hidv1, ?_⟩
              intro x hx hxv
              by_cases hxid : x = id
              · subst hxid
                constructor
                · exact ⟨asset, hlk, hcomp, herr⟩
                · intro m hm dep hdep
                  rw [hlk] at hm
                  cases hm
                  exact hdeps dep hdep
              · have hxiv : x ∉ id :: v := by
                  intro hmem
                  rcases List.mem_cons.mp hmem with hh | hh
                  · exact hxid hh
                  · exact hxv hh
                exact hP x hx hxiv
    refine ⟨hF, ?_⟩
    intro g deps
    induction deps with
    | nil =>
      intro v v1 h
      rw [moduleFinishedDeps_nil] at h
      cases h
      exact ⟨by simp, fun x hx hxv => absurd hx hxv⟩
    | cons d rest ihd =>
      intro v v1 h
      rw [moduleFinishedDeps_cons] at h
      by_cases hd : d ∈ v
      · rw [if_pos hd] at h
        have hsub := (moduleFinished_subset_all (f + 1)).2 g rest v v1 h
        refine ⟨?_, (ihd v v1 h).2⟩
        intro x hx
        rcases List.mem_cons.mp hx with hxd | hxr
        · subst hxd; exact hsub x hd
        · exact (ihd v v1 h).1 x hxr
      · rw [if_neg hd] at h
        cases hmf : moduleFinished (f + 1) g d v with
        | error e => rw [hmf] at h; cases h
        | ok v2 =>
          rw [hmf] at h
          have hFd := hF g d v v2 hmf
          have hsub2 := (moduleFinished_subset_all (f + 1)).1 g d v v2 hmf
          have hsub1 := (moduleFinished_subset_all (f + 1)).2 g rest v2 v1 h
          have hihd := ihd v2 v1 h
          constructor
          · intro x hx
            rcases List.mem_cons.mp hx with hxd | hxr
            · subst hxd; exact hsub1 x hFd.1
            · exact hihd.1 x hxr
          · intro x hx hxv
            by_cases hxv2 : x ∈ v2
            · have := hFd.2 x hxv2 hxv
              exact ⟨this.1, depsIn_mono g x v2 v1 this.2 hsub1⟩
            · exact hihd.2 x hx hxv2

theorem moduleFinished_fuel_all (fuel : Nat) :
    (∀ (g : ModuleGraph) (id : String) (v : List String),
      remainingKeys g v < fuel →
      moduleFinished fuel g id v ≠ Except.error FinishedError.outOfFuel) ∧
    (∀ (g : ModuleGraph) (deps : List String) (v : List String),
      remainingKeys g v < fuel →
      moduleFinishedDeps fuel g deps v ≠ Except.error FinishedError.outOfFuel) := by
  induction fuel with
  | zero =>
    constructor
    · intro g id v hv; omega
    · intro g deps v hv; omega
  | succ f ih =>
    have hF : ∀ (g : ModuleGraph) (id : String) (v : List String),
        remainingKeys g v < f + 1 →
        moduleFinished (f + 1) g id v ≠ Except.error FinishedError.outOfFuel := by
      intro g id v hv
      rw [moduleFinished_succ]
      by_cases hid : id ∈ v
      · rw [if_pos hid]
        intro h; cases h
      · rw [if_neg hid]
        cases hlk : List.lookup id g with
        | none => intro h; cases h
        | some asset =>
          dsimp only
          cases herr : asset.compilationError with
          | some e => intro h; cases h
          | none =>
            dsimp only
            by_cases hcomp : asset.compiled = none
            · rw [if_pos hcomp]
              intro h; cases h
            · rw [if_neg hcomp]
              have hidk : id ∈ g.map Prod.fst := mem_keys_of_lookup g id asset hlk
              have hlt : remainingKeys g (id :: v) < remainingKeys g v :=
                remainingKeys_cons_lt g id v hidk hid
              exact ih.2 g asset.dependencies (id :: v) (by omega)
    refine ⟨hF, ?_⟩
    intro g deps
    induction deps with
    | nil =>
      intro v hv
      rw [moduleFinishedDeps_nil]
      intro h; cases h
    | cons d rest ihd =>
      intro v hv
      rw [moduleFinishedDeps_cons]
      by_cases hd : d ∈ v
      · rw [if_pos hd]
        exact ihd v hv
      · rw [if_neg hd]
        cases hmf : moduleFinished (f + 1) g d v with
        | error e =>
          intro h
          cases h
          exact hF g d v hv hmf
        | ok v2 =>
          have hsub := (moduleFinished_subset_all (f + 1)).1 g d v v2 hmf
          have hle : remainingKeys g v2 ≤ remainingKeys g v :=
            remainingKeys_le_of_subset g v v2 hsub
          exact ihd v2 (by omega)

theorem moduleFinished_error_all (fuel : Nat) :
    (∀ (g : ModuleGraph) (id : String) (v : List String) (root : String) (e : String),
      Reaches g root id →
      moduleFinished fuel g id v = Except.error (FinishedError.compilation e) →
      ∃ x m, Reaches g root x ∧ List.lookup x g = some m ∧
        m.compilationError = some e) ∧
    (∀ (g : ModuleGraph) (deps : List String) (v : List String) (root : String) (e : String),
      (∀ d ∈ deps, Reaches g root d) →
      moduleFinishedDeps fuel g deps v = Except.error (FinishedError.compilation e) →
      ∃ x m, Reaches g root x ∧ List.lookup x g = some m ∧
        m.compilationError = some e) := by
  induction fuel with
  | zero =>
    constructor
    · intro g id v root e hr h
      rw [moduleFinished_zero] at h
      simp at h
    · intro g deps
      induction deps with
      | nil =>
        intro v root e hr h
        rw [moduleFinishedDeps_nil] at h
        simp at h
      | cons d rest ihd =>
        intro v root e hr h
        rw [moduleFinishedDeps_cons] at h
        by_cases hd : d ∈ v
        · rw [if_pos hd] at h
          exact ihd v root e (fun x hx => hr x (List.mem_cons_of_mem d hx)) h
        · rw [if_neg hd, moduleFinished_zero] at h
          simp at h
  | succ f ih =>
    have hF : ∀ (g : ModuleGraph) (id : String) (v : List String) (root : String) (e : String),
        Reaches g root id →
        moduleFinished (f + 1) g id v = Except.error (FinishedError.compilation e) →
        ∃ x m, Reaches g root x ∧ List.lookup x g = some m ∧
          m.compilationError = some e := by
      intro g id v root e hr h
      rw [moduleFinished_succ] at h
      by_cases hid : id ∈ v
      · rw [if_pos hid] at h; simp at h
      · rw [if_neg hid] at h
        cases hlk : List.lookup id g with
        | none => rw [hlk] at h; simp at h
        | some asset =>
          rw [hlk] at h
          dsimp only at h
          cases herr : asset.compilationError with
          | some e0 =>
            rw [herr] at h
            simp only [Except.error.injEq, FinishedError.compilation.injEq] at h
            subst h
            exact ⟨id, asset, hr, hlk, herr⟩
          | none =>
            rw [herr] at h
            dsimp only at h
            by_cases hcomp : asset.compiled = none
            · rw [if_pos hcomp] at h; simp at h
            · rw [if_neg hcomp] at h
              have hreachdeps : ∀ d ∈ asset.dependencies, Reaches g root d :=
                fun d hd => Reaches.step hr hlk hd
              exact ih.2 g asset.dependencies (id :: v) root e hreachdeps h
    refine ⟨hF, ?_⟩
    intro g deps
    induction deps with
    | nil =>
      intro v root e hr h
      rw [moduleFinishedDeps_nil] at h
      simp at h
    | cons d rest ihd =>
      intro v root e hr h
      rw [moduleFinishedDeps_cons] at h
      by_cases hd : d ∈ v
      · rw [if_pos hd] at h
        exact ihd v root e (fun x hx => hr x (List.mem_cons_of_mem d hx)) h
      · rw [if_neg hd] at h
        cases hmf : moduleFinished (f + 1) g d v with
        | error e0 =>
          rw [hmf] at h
          simp only [Except.error.injEq] at h
          subst h
          exact hF g d v root e (hr d (List.mem_cons_self d rest)) hmf
        | ok v2 =>
          rw [hmf] at h
          exact ihd v2 root e (fun x hx => hr x (List.mem_cons_of_mem d hx)) h

theorem reaches_good (g : ModuleGraph) (entry : String) (fuel : Nat) (v1 : List String)
    (h : moduleFinished fuel g entry [] = Except.ok v1) :
    ∀ x, Reaches g entry x → x ∈ v1 ∧ goodModule g x := by
  have hsound := (moduleFinished_sound_all fuel).1 g entry [] v1 h
  intro x hx
  induction hx with
  | refl =>
    exact ⟨hsound.1,
      (hsound.2 entry hsound.1 (List.not_mem_nil entry)).1⟩
  | step hreach hlk hdep ih2 =>
    rename_i y z m
    have hz : z ∈ v1 :=
      (hsound.2 y ih2.1 (List.not_mem_nil y)).2 m hlk z hdep
    exact ⟨hz, (hsound.2 z hz (List.not_mem_nil z)).1⟩

/-- C1: the dependency-closure wait. With any fuel exceeding the number
of graph keys (the recursion visits each unvisited module at most once,
so the visited set makes the walk terminate even on cyclic graphs):
(1) the walk never exhausts its budget; (2) if
`moduleFinishedPromise(entry)` resolves successfully, every module
reachable from `entry` through dependency edges has `compiled != null`
and `compilationError == null`; (3) if it rejects with a compilation
error, that error is the `compilationError` of a module reachable from
`entry` -- the first one the (deterministic, depth-first) walk
encounters. -/
theorem c1_moduleFinished_closure (g : ModuleGraph) (entry : String) (fuel : Nat)
    (hfuel : remainingKeys g [] < fuel) :
    (moduleFinished fuel g entry [] ≠ Except.error FinishedError.outOfFuel) ∧
    (∀ v1, moduleFinished fuel g entry [] = Except.ok v1 →
      ∀ x, Reaches g entry x → goodModule g x) ∧
    (∀ e, moduleFinished fuel g entry [] = Except.error (FinishedError.compilation e) →
      ∃ x m, Reaches g entry x ∧ List.lookup x g = some m ∧
        m.compilationError = some e) := by
  refine ⟨(moduleFinished_fuel_all fuel).1 g entry [] hfuel, ?_, ?_⟩
  · intro v1 h x hx
    exact (reaches_good g entry fuel v1 h x hx).2
  · intro e h
    exact (moduleFinished_error_all fuel).1 g entry [] entry e (Reaches.refl entry) h

/-- Witness for C1 on a one-module graph with fuel 2. -/
theorem c1_witness :
    moduleFinished 2
        [("/index.js",
          { compiled := some "code", compilationError := none, dependencies := [] })]
        "/index.js" [] ≠ Except.error FinishedError.outOfFuel :=
  (c1_moduleFinished_closure
    [("/index.js",
      { compiled := some "code", compilationError := none, dependencies := [] })]
    "/index.js" 2 (by decide)).1

/-! ## Evaluator lemmas (C5) -/

theorem evalModule_zero (g : List (String × EvalNode)) (path : String)
    (cache : EvalCache) (next : Nat) :
    evalModule 0 g path cache next = none := by
  rw [evalModule]

theorem evalModule_succ (f : Nat) (g : List (String × EvalNode)) (path : String)
    (cache : EvalCache) (next : Nat) :
    evalModule (f + 1) g path cache next =
      (match cache.lookup path with
       | some e => some (cache, e, next, [])
       | none =>
         match g.lookup path with
         | none => none
         | some node =>
           match evalRequires f g node.requiresList cache next with
           | none => none
           | some (cache1, next1, trace) =>
             some ((path, next1) :: cache1, next1, next1 + 1, trace ++ [path])) := by
  rw [evalModule]

theorem evalRequires_cons (f : Nat) (g : List (String × EvalNode)) (p : String)
    (rest : List String) (cache : EvalCache) (next : Nat) :
    evalRequires f g (p :: rest) cache next =
      (match evalModule f g p cache next with
       | none => none
       | some (cache1, _, next1, trace1) =>
         match evalRequires f g rest cache1 next1 with
         | none => none
         | some (cache2, next2, trace2) => some (cache2, next2, trace1 ++ trace2)) := by
  rw [evalRequires]

/-- On the cyclic graph the evaluation of either module with an empty
cache never completes: the cache entry that would break the cycle is
only written after the module's code has finished running, so the
re-entrant evaluation always starts over. -/
theorem evalCycle_none (fuel : Nat) :
    ∀ next : Nat,
      evalModule fuel cycleGraph "/a.js" [] next = none ∧
      evalModule fuel cycleGraph "/b.js" [] next = none := by
  induction fuel with
  | zero => intro next; exact ⟨evalModule_zero _ _ _ _, evalModule_zero _ _ _ _⟩
  | succ f ih =>
    intro next
    constructor
    · rw [evalModule_succ]
      have h1 : (List.lookup "/a.js" ([] : EvalCache)) = none := rfl
      rw [h1]
      have h2 : List.lookup "/a.js" cycleGraph = some { requiresList := ["/b.js"] } := by
        decide
      rw [h2]
      dsimp only
      rw [evalRequires_cons, (ih next).2]
    · rw [evalModule_succ]
      have h1 : (List.lookup "/b.js" ([] : EvalCache)) = none := rfl
      rw [h1]
      have h2 : List.lookup "/b.js" cycleGraph = some { requiresList := ["/a.js"] } := by
        decide
      rw [h2]
      dsimp only
      rw [evalRequires_cons, (ih next).1]

/-- C5 counterexample: in the cyclic import graph A→B→A the evaluation
never completes, for every nesting budget: `Module.evaluate` installs
`this.evaluation` only after `new Evaluation(this)` -- which
synchronously runs the compiled code and therefore the requires --
returns (`src/unnamed/part_000` line 180), so the re-entrant
`evaluate()` of A inside B does not see a cached evaluation and starts
executing A again, unboundedly. The claim's scenario (the module
evaluated second observes the partially populated exports of the
first) therefore never happens. -/
theorem c5_counterexample : EvalDiverges cycleGraph "/a.js" :=
  fun fuel next => (evalCycle_none fuel next).1

/-- C5 (amended): the `Evaluation` produced by a *completed*
`evaluate()` is cached on the module, and a later `evaluate()` returns
those cached exports without executing the compiled code again (empty
execution trace, state untouched). But the cache is installed only
after the compiled code has run to completion, so a re-entrant
`evaluate()` does not benefit from it: the cyclic import graph A→B→A
re-enters evaluation unboundedly and never completes instead of
observing partially populated exports. -/
theorem c5_evaluate_cache :
    (∀ (fuel : Nat) (g : List (String × EvalNode)) (path : String)
        (cache : EvalCache) (next e : Nat),
      cache.lookup path = some e →
      evalModule (fuel + 1) g path cache next = some (cache, e, next, [])) ∧
    EvalDiverges cycleGraph "/a.js" := by
  constructor
  · intro fuel g path cache next e h
    rw [evalModule_succ, h]
  · exact fun fuel next => (evalCycle_none fuel next).1

/-- Witness for C5: a cached module evaluates to its cached exports
with no code execution. -/
theorem c5_witness :
    evalModule 1 [] "/x.js" [("/x.js", 7)] 3 = some ([("/x.js", 7)], 7, 3, []) :=
  c5_evaluate_cache.1 0 [] "/x.js" [("/x.js", 7)] 3 7 (by decide)
